import Mathlib

/-!
Verification of the resume-tailoring engine (coverage scoring, truth
guardrails, patch suggestion and patch application).

The Lean definitions below are a shallow embedding of the Python source:

  * app/services/ats_scoring.py      (skill extraction, evidence, scoring)
  * app/services/resume_patches.py   (role suggestion, guardrails, patching)
  * app/routers/resume_overrides.py  (patch-suggestion loop)

Modelling conventions: Python strings are Lean `String`s restricted to the
ASCII case semantics of `Char.toLower` / `Char.isAlphanum` (all lexicon
constants and regex character classes in the source are ASCII); Python
floats are modelled as rationals; Python `round` (round half to even) is
`pyRound`; Python exceptions are modelled with `Except` / an error value
threaded next to the partially-mutated state.
-/

/-- ASCII word character, the `\w` class of the source's regexes. -/
def isWordChar (c : Char) : Bool := c.isAlphanum || c == '_'

/-- Whitespace as Python's `str.strip` / `\s` treat it (ASCII range). -/
def isPySpace (c : Char) : Bool :=
  c == ' ' || c == '\t' || c == '\n' || c == '\r' || c == '\x0b' || c == '\x0c'

/-- Characters of the `[A-Za-z0-9+.#-]` classes used for skill tokens. -/
def isSkillTokenChar (c : Char) : Bool :=
  c.isAlphanum || c == '+' || c == '.' || c == '#' || c == '-'

/-- Python `str.lower` (ASCII). -/
def strLower (s : String) : String := ⟨s.data.map Char.toLower⟩

/-- Python `str.strip`. -/
def pyStrip (s : String) : String :=
  ⟨((s.data.dropWhile isPySpace).reverse.dropWhile isPySpace).reverse⟩

/-- Python `str.splitlines` (covering the `\n`, `\r\n` and `\r` terminators
that occur in this system's inputs). -/
def pySplitlinesAux : List Char → List Char → List String
  | [], acc => if acc.isEmpty then [] else [String.mk acc.reverse]
  | '\r' :: '\n' :: rest, acc => String.mk acc.reverse :: pySplitlinesAux rest []
  | '\r' :: rest, acc => String.mk acc.reverse :: pySplitlinesAux rest []
  | '\n' :: rest, acc => String.mk acc.reverse :: pySplitlinesAux rest []
  | c :: rest, acc => pySplitlinesAux rest (c :: acc)

def pySplitlines (s : String) : List String := pySplitlinesAux s.data []

/-- Python `needle in hay` on strings (substring containment). -/
def strContains (hay needle : String) : Bool :=
  (List.range (hay.data.length + 1)).any fun i =>
    (hay.data.drop i).take needle.data.length == needle.data

/-- `_has_token(text, token)` from ats_scoring.py: case-insensitive search
for the literal token with `(?<!\w)` / `(?!\w)` boundary lookarounds. -/
def hasToken (text token : String) : Bool :=
  if token.data.isEmpty then false
  else
    let t := text.data.map Char.toLower
    let k := token.data.map Char.toLower
    (List.range (t.length + 1)).any fun i =>
      ((t.drop i).take k.length == k)
      && (i == 0 || !(isWordChar (t.getD (i - 1) ' ')))
      && (!(isWordChar (t.getD (i + k.length) ' ')))

/-- `_contains_token` from resume_patches.py; it lowercases the token before
escaping, which the case-insensitive `hasToken` already subsumes. -/
def containsToken (text token : String) : Bool := hasToken text token

/-- `_skill_already_present`'s per-line search from resume_overrides.py.
The source builds the pattern from the RAW strings `r"(?<!\\w)"` and
`r"(?!\\w)"`, i.e. the lookarounds test for the literal two-character
sequence backslash-`w`, not for a word character; on backslash-free resume
text this degenerates to case-insensitive substring search. -/
def buggyTokenSearch (text token : String) : Bool :=
  let t := text.data.map Char.toLower
  let k := token.data.map Char.toLower
  (List.range (t.length + 1)).any fun i =>
    ((t.drop i).take k.length == k)
    && !(2 ≤ i && t.getD (i - 2) '!' == '\\' && t.getD (i - 1) '!' == 'w')
    && !(t.getD (i + k.length) '!' == '\\' && t.getD (i + k.length + 1) '!' == 'w')

/-- Python `round` on a rational: round half to even. -/
def pyRound (q : ℚ) : ℤ :=
  let f : ℤ := ⌊q⌋
  if q - f < 1/2 then f
  else if (1 : ℚ)/2 < q - f then f + 1
  else if f % 2 = 0 then f else f + 1

/-- `_dedupe_preserve` from ats_scoring.py: case-insensitive dedup keeping
the first occurrence, preserving order. -/
def pyDedupeAux : List String → List String → List String
  | [], _ => []
  | x :: rest, seen =>
    if seen.contains (strLower x) then pyDedupeAux rest seen
    else x :: pyDedupeAux rest (strLower x :: seen)

def pyDedupe (values : List String) : List String := pyDedupeAux values []

/-- Modelled from the spec: app/models/schemas.py is not in the provided
sources; `Role` follows section 3 of the design document (role_id, company,
title, dates, location, bullets; optional text fields are Strings with ""
for absent, matching the source's `or ""` uses). -/
structure Role where
  role_id : String
  company : String
  title : String
  dates : String
  location : String
  bullets : List String
deriving DecidableEq, Repr

/-- Modelled from the spec: the `sections` payload of a ResumeState. -/
structure ResumeSections where
  professional_summary : String
  technical_skills : List String
  experience : List Role
  education : List String
deriving DecidableEq, Repr

/-- Modelled from the spec: ResumeState. -/
structure ResumeState where
  sections : ResumeSections
deriving DecidableEq, Repr

/-- Modelled from the spec: SkillEvidence (role_id/bullet_index present iff
the evidence comes from an experience bullet). -/
structure SkillEvidence where
  section_ : String
  role_id : Option String
  bullet_index : Option Nat
  snippet : String
deriving DecidableEq, Repr

/-- Modelled from the spec: SkillCoverage. -/
structure SkillCoverage where
  skill : String
  status : String
  evidence : List SkillEvidence
  direct_from_resume : Bool
deriving DecidableEq, Repr

/-- Modelled from the spec: AtsScoreResponse. -/
structure AtsScoreResponse where
  ats_score : ℤ
  keyword_score : ℤ
  role_score : ℤ
  capped_reason : Option String
  missing_must_have : Option (List String)
  required : List SkillCoverage
  preferred : List SkillCoverage
  missing_required : List String
  missing_preferred : List String
deriving DecidableEq, Repr

/-- Modelled from the spec: OverrideSkill. -/
structure OverrideSkill where
  skill : String
  level : String
  target_roles : List String
  proof_bullets : List String
deriving DecidableEq, Repr

/-- Modelled from the spec: the overrides payload (a list of OverrideSkill). -/
structure Overrides where
  skills : List OverrideSkill
deriving DecidableEq, Repr

/-- Modelled from the spec: PatchOperation. Indices are integers since the
source compares them against negative bounds. -/
structure PatchOperation where
  section_ : String
  action : String
  role_id : Option String
  after_index : Option ℤ
  bullet_index : Option ℤ
  new_bullet : String
  skill : Option String
deriving DecidableEq, Repr

/-- Modelled from the spec: the example override payload attached to a
BlockedSuggestion (an OverrideSkill-shaped structure under a `skills` key). -/
structure ExamplePayload where
  skills : List OverrideSkill
deriving DecidableEq, Repr

/-- Modelled from the spec: BlockedSuggestion. -/
structure BlockedSuggestion where
  skill : String
  reason : String
  recommended_action : String
  suggested_role_ids : List String
  example_override_payload : Option ExamplePayload
deriving DecidableEq, Repr

/-! Static lexicon from ats_scoring.py. -/

def SECTION_REQUIRED : List String :=
  ["required", "requirements", "must have", "must-have", "qualifications"]

def SECTION_PREFERRED : List String :=
  ["preferred", "nice to have", "nice-to-have", "preferred qualifications"]

def SECTION_RESP : List String := ["responsibilities", "responsibility"]

def SKILL_DICTIONARY : List String :=
  ["SQL", "Python", "DBT", "Tableau", "Power BI", "Snowflake", "Fivetran", "Airflow",
   "Databricks", "Spark", "PySpark", "AWS", "Azure", "GCP", "Git", "Docker", "Kubernetes",
   "ETL", "ELT", "Data Warehouse", "Data Modeling", "Dimensional Modeling",
   "Star Schema", "Snowflake Schema", "Data Governance", "Data Quality", "Data Validation",
   "Analytics", "Dashboarding", "Looker", "Redshift", "BigQuery", "PostgreSQL", "MySQL",
   "SQL Server", "Oracle", "NoSQL", "Kafka", "API", "REST", "CI/CD", "Linux",
   "Monitoring", "Data Pipelines", "DBA", "Data Engineering", "Analytics Engineering",
   "Machine Learning", "NLP", "Jupyter", "Terraform", "Jira", "Agile", "Scrum",
   "Unit Testing", "Data Lake", "Delta Lake", "MLflow", "SSIS", "SSRS", "SSAS"]

def SYNONYMS : List (String × List String) :=
  [("dbt", ["data build tool", "data build tools"]),
   ("power bi", ["powerbi"]),
   ("data modeling", ["data model", "relational modeling"]),
   ("dimensional modeling", ["star schema", "snowflake schema", "dimensional model"]),
   ("data warehouse", ["data warehousing", "cloud data warehouse"]),
   ("etl", ["extract transform load"]),
   ("elt", ["extract load transform"]),
   ("sql", ["structured query language"]),
   ("airflow", ["apache airflow"]),
   ("spark", ["apache spark"]),
   ("kubernetes", ["k8s"]),
   ("ci/cd", ["cicd", "ci cd"]),
   ("rest", ["rest api", "restful"])]

def MUST_HAVE_DOMAINS : List String :=
  ["mqtt", "opc ua", "opc-ua", "opcua", "modbus", "bacnet", "scada", "mes",
   "historian", "pi", "osisoft", "ignition", "plc", "iiot", "ot",
   "influxdb", "timescaledb", "opc"]

/-- `_SYNONYMS.get(key, [])`. -/
def synLookup (key : String) : List String := (SYNONYMS.lookup key).getD []

/-! The `\b[A-Z][A-Za-z0-9+.#-]{2,}\b` findall of `find_skills_in_text`. -/

/-- Wordness of an optional character (out of bounds counts as non-word). -/
def wordB : Option Char → Bool
  | none => false
  | some c => isWordChar c

/-- `\b` between positions p-1 and p of t. -/
def wordBoundaryAt (t : List Char) (p : ℕ) : Bool := wordB (t.get? (p - 1)) != wordB (t.get? p)

/-- Greedy backtracking of the `{2,}` quantifier: the largest k with
2 ≤ k ≤ the given bound such that a word boundary holds after position
base + k; returns that end position. -/
def capsBackAux (t : List Char) (base : ℕ) : ℕ → Option ℕ
  | 0 => none
  | 1 => none
  | k + 2 =>
    if wordBoundaryAt t (base + (k + 2)) then some (base + (k + 2))
    else capsBackAux t base (k + 1)

/-- Match of `\b[A-Z][A-Za-z0-9+.#-]{2,}\b` starting at i; returns the end
position on success. -/
def capsMatchAt (t : List Char) (i : ℕ) : Option ℕ :=
  match t.get? i with
  | none => none
  | some c =>
    if !('A' ≤ c && c ≤ 'Z') then none
    else if i ≠ 0 && isWordChar (t.getD (i - 1) ' ') then none
    else capsBackAux t (i + 1) ((t.drop (i + 1)).takeWhile isSkillTokenChar).length

/-- Left-to-right scan of `re.findall` (fuel-indexed; the scan advances at
least one position per step). -/
def capsFindAux (t : List Char) : ℕ → ℕ → List String
  | 0, _ => []
  | fuel + 1, i =>
    if i < t.length then
      match capsMatchAt t i with
      | some j => String.mk ((t.drop i).take (j - i)) :: capsFindAux t fuel j
      | none => capsFindAux t fuel (i + 1)
    else []

def capsTokens (text : String) : List String := capsFindAux text.data text.data.length 0

/-- `find_skills_in_text` from ats_scoring.py. -/
def find_skills_in_text (text : String) : List String :=
  let base := SKILL_DICTIONARY.filter fun skill =>
    hasToken text skill || (synLookup (strLower skill)).any fun variant => hasToken text variant
  let caps := capsTokens text
  let capsHits := caps.filter fun token =>
    SKILL_DICTIONARY.any fun skill => strLower token == strLower skill
  pyDedupe (base ++ capsHits)

/-- `_truncate_skills`. -/
def truncateSkills (required preferred : List String) (limit : ℕ) :
    List String × List String :=
  if required.length ≥ limit then (required.take limit, [])
  else (required, preferred.take (limit - required.length))

/-- One line of `extract_skills_from_jd`'s section-tracking loop; the
accumulator is (required, preferred, current section). -/
def extractStep (acc : List String × List String × String) (line : String) :
    List String × List String × String :=
  let lower := strLower line
  let current :=
    if SECTION_REQUIRED.any (fun key => strContains lower key) then "required"
    else if SECTION_PREFERRED.any (fun key => strContains lower key) then "preferred"
    else if SECTION_RESP.any (fun key => strContains lower key) then "required"
    else acc.2.2
  let found := find_skills_in_text line
  if current == "preferred" then (acc.1, acc.2.1 ++ found, current)
  else (acc.1 ++ found, acc.2.1, current)

/-- `extract_skills_from_jd` from ats_scoring.py; returns (required,
preferred). -/
def extract_skills_from_jd (jd_text : String) (top_n_skills : ℤ) :
    List String × List String :=
  let lines := ((pySplitlines jd_text).map pyStrip).filter (fun l => l ≠ "")
  let res := lines.foldl extractStep ([], [], "required")
  let required := pyDedupe res.1
  let preferred := (pyDedupe res.2.1).filter (fun s => ¬ required.contains s)
  let required :=
    if required = [] ∧ preferred = [] then pyDedupe (find_skills_in_text jd_text)
    else required
  if 0 < top_n_skills then truncateSkills required preferred top_n_skills.toNat
  else (required, preferred)

/-! Evidence matching and coverage from ats_scoring.py. -/

/-- `_matches_direct`. -/
def matchesDirect (skill text : String) : Bool := hasToken text skill

/-- `_matches_partial`. -/
def matchesPartial (skill text : String) : Bool :=
  (synLookup skill).any fun variant => hasToken text variant

/-- The `match` closure of `_find_evidence`. -/
def evidenceMatch (canonical : String) (strict_mode direct_only : Bool) (text : String) : Bool :=
  if direct_only then matchesDirect canonical text
  else matchesDirect canonical text ||
    (if !strict_mode then matchesPartial canonical text else false)

/-- `_find_evidence` from ats_scoring.py: summary lines, then technical
skills lines, then every experience bullet in role/bullet order. -/
def find_evidence (skill : String) (state : ResumeState)
    (summary_lines skills_lines : List String) (strict_mode direct_only : Bool) :
    List SkillEvidence :=
  let canonical := strLower skill
  let m := evidenceMatch canonical strict_mode direct_only
  ((summary_lines.filter m).map fun line =>
      { section_ := "summary", role_id := none, bullet_index := none, snippet := line })
  ++ ((skills_lines.filter m).map fun line =>
      { section_ := "technical_skills", role_id := none, bullet_index := none, snippet := line })
  ++ (state.sections.experience.flatMap fun role =>
      ((role.bullets.enum.filter fun p => m p.2).map fun p =>
        { section_ := "experience", role_id := some role.role_id,
          bullet_index := some p.1, snippet := p.2 }))

/-- Coverage of one skill inside `_coverage_for_skills`. -/
def coverageForSkill (state : ResumeState) (summary_lines skills_lines : List String)
    (strict_mode : Bool) (skill : String) : SkillCoverage :=
  let direct_evidence := find_evidence skill state summary_lines skills_lines strict_mode true
  if direct_evidence ≠ [] then
    { skill := skill, status := "direct", evidence := direct_evidence, direct_from_resume := true }
  else if !strict_mode ∧
      find_evidence skill state summary_lines skills_lines strict_mode false ≠ [] then
    { skill := skill, status := "partial",
      evidence := find_evidence skill state summary_lines skills_lines strict_mode false,
      direct_from_resume := false }
  else
    { skill := skill, status := "missing", evidence := [], direct_from_resume := false }

/-- The non-blank summary lines computed at the top of `_coverage_for_skills`
(original lines kept, blank ones dropped). -/
def summaryLines (state : ResumeState) : List String :=
  (pySplitlines state.sections.professional_summary).filter fun line => pyStrip line ≠ ""

/-- `_coverage_for_skills` from ats_scoring.py. -/
def coverage_for_skills (skills : List String) (state : ResumeState) (strict_mode : Bool) :
    List SkillCoverage :=
  skills.map (coverageForSkill state (summaryLines state) state.sections.technical_skills strict_mode)

/-- `has_direct_evidence` from ats_scoring.py (technical skills first, then
summary lines, then experience bullets). -/
def has_direct_evidence (state : ResumeState) (skill : String) : Bool :=
  let token := strLower (pyStrip skill)
  if token == "" then false
  else if state.sections.technical_skills.any (fun line => hasToken line token) then true
  else if (summaryLines state).any (fun line => hasToken line token) then true
  else state.sections.experience.any fun role => role.bullets.any fun b => hasToken b token

/-- `_must_have_gates` from ats_scoring.py: substring hits of the domain
keywords in the lowercased JD text. -/
def mustHaveGates (jd_text : String) : List String :=
  pyDedupe (MUST_HAVE_DOMAINS.filter fun kw => strContains (strLower jd_text) kw)

/-- `_count_covered`: 1.0 per direct skill, 0.5 per partial when not strict. -/
def countCovered (coverage : List SkillCoverage) (strict_mode : Bool) : ℚ :=
  coverage.foldl
    (fun total item =>
      if item.status == "direct" then total + 1
      else if item.status == "partial" && !strict_mode then total + 1/2
      else total)
    0

/-- The unclamped `keyword_score` expression of `score_resume_against_jd`. -/
def keywordScoreRaw (req_covered pref_covered : ℚ) (req_total pref_total : ℕ) : ℤ :=
  if req_total ≠ 0 ∨ pref_total ≠ 0 then
    let reqFrac : ℚ := if req_total ≠ 0 then req_covered / req_total else 0
    let prefFrac : ℚ := if pref_total ≠ 0 then pref_covered / pref_total else 0
    if pref_total = 0 then pyRound (reqFrac * 100)
    else pyRound (reqFrac * 70 + prefFrac * 30)
  else 0

/-- The `final_score` blend of `score_resume_against_jd` (the floats 0.6 and
0.4 modelled as rationals). -/
def finalScoreRaw (keyword_score role_score : ℤ) : ℤ :=
  pyRound ((keyword_score : ℚ) * (6/10) + (role_score : ℚ) * (4/10))

/-- `score_resume_against_jd` from ats_scoring.py. -/
def score_resume_against_jd (jd_text : String) (state : ResumeState)
    (top_n_skills : ℤ) (strict_mode : Bool) : AtsScoreResponse :=
  let skills := extract_skills_from_jd jd_text top_n_skills
  let required := skills.1
  let preferred := skills.2
  let req_coverage := coverage_for_skills required state strict_mode
  let pref_coverage := coverage_for_skills preferred state strict_mode
  let keyword_score : ℤ := max 0 (min 100 (keywordScoreRaw
    (countCovered req_coverage strict_mode) (countCovered pref_coverage strict_mode)
    required.length preferred.length))
  let direct_req := (req_coverage.filter fun item => item.status == "direct").length
  let role_score : ℤ :=
    if required.length ≠ 0 then pyRound (((direct_req : ℚ) / (required.length : ℚ)) * 100)
    else keyword_score
  let final_score := finalScoreRaw keyword_score role_score
  let must_have_hit := mustHaveGates jd_text
  let missing_must_have := must_have_hit.filter fun skill => ¬ has_direct_evidence state skill
  let capped_reason : Option String :=
    if missing_must_have ≠ [] then some "Missing domain must-have evidence" else none
  let final_score := if missing_must_have ≠ [] then min final_score 40 else final_score
  { ats_score := final_score
    keyword_score := keyword_score
    role_score := role_score
    capped_reason := capped_reason
    missing_must_have :=
      if missing_must_have ≠ [] then some (pyDedupe missing_must_have) else none
    required := req_coverage
    preferred := pref_coverage
    missing_required := (req_coverage.filter fun i => i.status == "missing").map (·.skill)
    missing_preferred := (pref_coverage.filter fun i => i.status == "missing").map (·.skill) }

/-! resume_patches.py: role suggestion, guardrails, patch application. -/

def STOPWORDS : List String :=
  ["and", "or", "the", "a", "an", "to", "of", "for", "with", "in", "on", "by",
   "from", "as", "at"]

/-- Maximal runs of `[A-Za-z0-9+#.-]` characters (the `_TOKEN_RE` findall). -/
def tokenRunsAux : List Char → List Char → List (List Char)
  | [], cur => if cur.isEmpty then [] else [cur.reverse]
  | c :: rest, cur =>
    if isSkillTokenChar c then tokenRunsAux rest (c :: cur)
    else if cur.isEmpty then tokenRunsAux rest []
    else cur.reverse :: tokenRunsAux rest []

/-- `_tokenize` from resume_patches.py: lowercased tokens of length > 2
minus stopwords; the Python set is modelled as a deduplicated list (only
membership and cardinality are ever used). -/
def tokenizeSet (text : String) : List String :=
  pyDedupe ((((tokenRunsAux text.data []).map String.mk).filter
      (fun t => 2 < t.data.length)).map strLower |>.filter
      (fun t => ¬ STOPWORDS.contains t))

/-- Cardinality of the intersection of two token sets (first list deduped). -/
def setInterCard (a b : List String) : ℕ := (a.filter fun t => b.contains t).length

/-- Lexicographic code-point comparison of char lists (Python's string `<`;
written out so that it reduces definitionally, unlike String.decidableLT). -/
def charListLT : List Char → List Char → Bool
  | [], [] => false
  | [], _ :: _ => true
  | _ :: _, [] => false
  | a :: as, b :: bs =>
    if a < b then true else if b < a then false else charListLT as bs

def strLT (a b : String) : Bool := charListLT a.data b.data

/-- Python's sort key `(-score, role_id)` as a strict comparison. -/
def keyLT (a b : ℕ × String) : Bool :=
  b.1 < a.1 || (a.1 == b.1 && strLT a.2 b.2)

/-- Stable insertion placing x after all entries not strictly greater in the
key order (matching the stability of Python's sort). -/
def insertKeyed (x : ℕ × String) : List (ℕ × String) → List (ℕ × String)
  | [] => [x]
  | y :: l => if keyLT x y then x :: y :: l else y :: insertKeyed x l

/-- Stable sort by `(-score, role_id)`. -/
def sortKeyed (xs : List (ℕ × String)) : List (ℕ × String) :=
  xs.foldl (fun acc x => insertKeyed x acc) []

/-- The role text joined from company/title/location/dates/bullets, skipping
empty parts, as in `suggest_roles_for_skill`. -/
def roleText (role : Role) : String :=
  String.intercalate " "
    (([role.company, role.title, role.location, role.dates,
       String.intercalate " " role.bullets]).filter fun part => part ≠ "")

/-- The `(overlap, role_id)` pair scored for one role. -/
def roleScorePair (tokens : List String) (skill : String) (role : Role) : ℕ × String :=
  let rt := roleText role
  let overlap := setInterCard tokens (tokenizeSet rt)
  let overlap := if skill ≠ "" && containsToken rt skill then overlap + 3 else overlap
  (overlap, role.role_id)

/-- `suggest_roles_for_skill` from resume_patches.py. -/
def suggest_roles_for_skill (resume_state : ResumeState) (skill : String)
    (jd_context : Option String) : List String :=
  let skill := pyStrip skill
  if resume_state.sections.experience = [] then []
  else
    let tokens := tokenizeSet (skill ++ " " ++ jd_context.getD "")
    let scored := resume_state.sections.experience.map (roleScorePair tokens skill)
    let sorted := sortKeyed scored
    let top := ((sorted.filter fun p => 0 < p.1).map (·.2)).take 2
    if top = [] then (sorted.map (·.2)).take 2 else top

/-- `_choose_context` from resume_patches.py. -/
def chooseContext (jd_text : String) : String :=
  let text := strLower jd_text
  if ["dashboard", "report", "tableau", "visualization"].any
      (fun w => strContains text w) then "reporting and analytics"
  else if ["pipeline", "ingest", "ingestion", "etl", "elt"].any
      (fun w => strContains text w) then "data ingestion and transformation"
  else if ["model", "schema", "dbt", "dimensional"].any
      (fun w => strContains text w) then "data modeling"
  else "data processing"

/-- `proof_bullet_template` from resume_patches.py. -/
def proof_bullet_template (skill : String) (jd_text : Option String) : String :=
  let skill := pyStrip skill
  let context := chooseContext (jd_text.getD "")
  "Used " ++ skill ++ " to support " ++ context ++
    " workflows, improving consistency and reliability."

/-- `_build_blocked_suggestion` from resume_patches.py. -/
def buildBlockedSuggestion (skill reason recommended_action : String)
    (resume_state : ResumeState) (jd_text : Option String) : BlockedSuggestion :=
  let suggested_roles := suggest_roles_for_skill resume_state skill jd_text
  let example_payload : Option ExamplePayload :=
    if recommended_action == "add_override" then
      some { skills := [{ skill := skill, level := "worked_with",
                          target_roles := suggested_roles.take 1,
                          proof_bullets := [proof_bullet_template skill jd_text] }] }
    else none
  { skill := skill, reason := reason, recommended_action := recommended_action,
    suggested_role_ids := suggested_roles,
    example_override_payload := example_payload }

/-- The lowered override skill set of `apply_truth_guardrails`. -/
def overrideSkillSet (overrides : Option Overrides) : List String :=
  ((overrides.map (·.skills)).getD []).map fun entry => strLower (pyStrip entry.skill)

/-- The per-patch decision of `apply_truth_guardrails`'s loop body: `some`
with the blocked suggestion when the patch is blocked, `none` when it is
kept. -/
def guardrailBlock (missing_required override_skills direct_skills : List String)
    (resume_state : ResumeState) (jd_text : Option String) (truth_mode : String)
    (patch : PatchOperation) : Option BlockedSuggestion :=
  let skill := pyStrip (patch.skill.getD "")
  let skill_key := if skill ≠ "" then strLower skill else ""
  let shown := if skill ≠ "" then skill else "unknown"
  let has_override := override_skills.contains skill_key
  let has_direct := direct_skills.contains skill_key ||
    (skill_key ≠ "" && has_direct_evidence resume_state skill_key)
  if truth_mode == "strict" ∧ patch.section_ == "experience" ∧
      missing_required.contains skill_key ∧ ¬ has_override then
    some (buildBlockedSuggestion shown
      "Missing required skill without override; cannot insert into experience in strict mode."
      "add_override" resume_state jd_text)
  else if truth_mode == "strict" ∧ patch.section_ == "technical_skills" ∧
      ¬ (has_direct || has_override) then
    some (buildBlockedSuggestion shown
      "No direct or override evidence; cannot add to technical skills in strict mode."
      "downgrade_to_exposure" resume_state jd_text)
  else if truth_mode == "balanced" ∧ patch.section_ == "experience" ∧
      missing_required.contains skill_key ∧ ¬ has_override then
    some (buildBlockedSuggestion shown
      "Missing required skill without override; cannot insert into experience in balanced mode."
      "add_override" resume_state jd_text)
  else none

/-- The filtering loop of `apply_truth_guardrails`. -/
def guardrailLoop (missing_required override_skills direct_skills : List String)
    (resume_state : ResumeState) (jd_text : Option String) (truth_mode : String) :
    List PatchOperation → List PatchOperation × List BlockedSuggestion
  | [] => ([], [])
  | p :: rest =>
    let res := guardrailLoop missing_required override_skills direct_skills
      resume_state jd_text truth_mode rest
    match guardrailBlock missing_required override_skills direct_skills
      resume_state jd_text truth_mode p with
    | some bs => (res.1, bs :: res.2)
    | none => (p :: res.1, res.2)

/-- `apply_truth_guardrails` from resume_patches.py. -/
def apply_truth_guardrails (suggestions : List PatchOperation)
    (ats_report : AtsScoreResponse) (overrides : Option Overrides)
    (truth_mode : String) (resume_state : ResumeState) (jd_text : Option String) :
    List PatchOperation × List BlockedSuggestion :=
  if truth_mode == "off" then (suggestions, [])
  else
    guardrailLoop (ats_report.missing_required.map strLower)
      (overrideSkillSet overrides)
      ((ats_report.required.filter (·.direct_from_resume)).map
        fun cov => strLower (pyStrip cov.skill))
      resume_state jd_text truth_mode suggestions

/-! Patch application (resume_patches.py) and the router's suggestion loop
(resume_overrides.py). -/

inductive PatchError where
  | indexError (msg : String)
  | valueError (msg : String)
deriving DecidableEq, Repr

/-- `_clean_bullet` step 2: strip one leading bullet marker, the
`^\s*(?:[-â€¢*]|\d+\.)\s+` substitution (the three middle class characters
are the mojibake bytes of a bullet point as they appear in the source). -/
def stripBulletMarker (cs : List Char) : List Char :=
  let rest := cs.dropWhile isPySpace
  match rest with
  | [] => cs
  | c :: rest2 =>
    if c == '-' || c == 'â' || c == '€' || c == '¢' || c == '*' then
      match rest2 with
      | d :: _ => if isPySpace d then rest2.dropWhile isPySpace else cs
      | [] => cs
    else if c.isDigit then
      match rest.dropWhile Char.isDigit with
      | '.' :: rest3 =>
        match rest3 with
        | e :: _ => if isPySpace e then rest3.dropWhile isPySpace else cs
        | [] => cs
      | _ => cs
    else cs

/-- `_clean_bullet` step 3: collapse whitespace runs to one space. -/
def collapseWsAux : List Char → Bool → List Char
  | [], _ => []
  | c :: rest, prevSpace =>
    if isPySpace c then
      if prevSpace then collapseWsAux rest true else ' ' :: collapseWsAux rest true
    else c :: collapseWsAux rest false

/-- `_clean_bullet` from resume_patches.py. -/
def cleanBullet (text : String) : String :=
  let step1 := text.data.map fun c =>
    if c == '\t' || c == '\r' || c == '\n' then ' ' else c
  pyStrip ⟨collapseWsAux (stripBulletMarker step1) false⟩

/-- The body of `_apply_experience_patch` acting on the found role. -/
def applyExpToRole (patch : PatchOperation) (role : Role) : Except PatchError Role :=
  let bullet := cleanBullet patch.new_bullet
  if patch.action == "replace" then
    match patch.bullet_index with
    | none => .error (.indexError "bullet_index out of range")
    | some bi =>
      if bi ≥ (role.bullets.length : ℤ) ∨ bi < 0 then
        .error (.indexError "bullet_index out of range")
      else .ok { role with bullets := role.bullets.set bi.toNat bullet }
  else if patch.action == "insert" then
    let idx : ℤ := patch.after_index.getD ((role.bullets.length : ℤ) - 1)
    if idx < -1 ∨ idx ≥ (role.bullets.length : ℤ) then
      .error (.indexError "after_index out of range")
    else .ok { role with bullets := role.bullets.insertIdx (idx + 1).toNat bullet }
  else .ok role

/-- `_find_role` of resume_patches.py combined with the in-place mutation:
rewrite the first role carrying the id, error when none does. -/
def updateFirstRole (rid : String) (f : Role → Except PatchError Role) :
    List Role → Except PatchError (List Role)
  | [] => .error (.valueError "role_id not found")
  | r :: rest =>
    if r.role_id == rid then (f r).map (· :: rest)
    else (updateFirstRole rid f rest).map (r :: ·)

/-- `_apply_experience_patch` from resume_patches.py. -/
def applyExperiencePatch (state : ResumeState) (patch : PatchOperation) :
    Except PatchError ResumeState :=
  match patch.role_id with
  | none => .error (.valueError "role_id is required")
  | some rid =>
    if rid == "" then .error (.valueError "role_id is required")
    else
      (updateFirstRole rid (applyExpToRole patch) state.sections.experience).map
        fun exp => { state with sections := { state.sections with experience := exp } }

/-- `_apply_skill_patch` from resume_patches.py. -/
def applySkillPatch (state : ResumeState) (patch : PatchOperation) :
    Except PatchError ResumeState :=
  if patch.action ≠ "insert" then
    .error (.valueError "Only insert is supported for technical_skills")
  else
    let skills := state.sections.technical_skills
    let bullet := cleanBullet patch.new_bullet
    let idx : ℤ := patch.after_index.getD ((skills.length : ℤ) - 1)
    if idx < -1 ∨ idx ≥ (skills.length : ℤ) then
      .error (.indexError "after_index out of range")
    else
      .ok { state with sections :=
        { state.sections with
          technical_skills := skills.insertIdx (idx + 1).toNat bullet } }

/-- The dispatch inside `apply_patches_to_state`'s loop. -/
def applyOnePatch (state : ResumeState) (patch : PatchOperation) :
    Except PatchError ResumeState :=
  if patch.section_ == "technical_skills" then applySkillPatch state patch
  else applyExperiencePatch state patch

/-- `apply_patches_to_state`: sequential, non-atomic application; on an
exception the state already holds the earlier patches. -/
def apply_patches_to_state (state : ResumeState) :
    List PatchOperation → ResumeState × Option PatchError
  | [] => (state, none)
  | p :: rest =>
    match applyOnePatch state p with
    | .error e => (state, some e)
    | .ok s2 => apply_patches_to_state s2 rest

/-- `_find_override` from resume_overrides.py. -/
def findOverride (overrides : Option Overrides) (skill : String) : Option OverrideSkill :=
  match overrides with
  | none => none
  | some o => o.skills.find? fun entry =>
      strLower (pyStrip entry.skill) == strLower (pyStrip skill)

/-- The router's `_find_role` (returns none when absent). -/
def findRoleOpt (state : ResumeState) (rid : String) : Option Role :=
  state.sections.experience.find? fun role => role.role_id == rid

/-- `_skill_already_present` from resume_overrides.py, with its miswritten
boundary pattern (see `buggyTokenSearch`); summary lines are iterated
without blank filtering here. -/
def skill_already_present (state : ResumeState) (skill : String) : Bool :=
  let token := strLower (pyStrip skill)
  state.sections.technical_skills.any (fun line => buggyTokenSearch line token)
  || (pySplitlines state.sections.professional_summary).any
      (fun b => buggyTokenSearch b token)
  || state.sections.experience.any fun role =>
      role.bullets.any fun b => buggyTokenSearch b token

/-- The inner proof-bullet loop of `suggest_patches` (counts is the
`inserts_per_role` dict). -/
def overrideProofLoop (skill rid : String) (after_idx : ℤ) (counts : String → ℕ) :
    List String → List PatchOperation × (String → ℕ)
  | [] => ([], counts)
  | proof :: rest =>
    if 2 ≤ counts rid then ([], counts)
    else
      let counts2 := fun r => if r == rid then counts r + 1 else counts r
      let res := overrideProofLoop skill rid after_idx counts2 rest
      ({ section_ := "experience", action := "insert", role_id := some rid,
         after_index := some after_idx, bullet_index := none,
         new_bullet := proof, skill := some skill } :: res.1, res.2)

/-- The target-roles loop of the override branch of `suggest_patches`. -/
def overrideRolesLoop (state : ResumeState) (skill : String) (proofs : List String)
    (counts : String → ℕ) : List String → List PatchOperation × (String → ℕ)
  | [] => ([], counts)
  | rid :: rest =>
    if 2 ≤ counts rid then overrideRolesLoop state skill proofs counts rest
    else
      match findRoleOpt state rid with
      | none => overrideRolesLoop state skill proofs counts rest
      | some role =>
        let res := overrideProofLoop skill rid ((role.bullets.length : ℤ) - 1)
          counts proofs
        let res2 := overrideRolesLoop state skill proofs res.2 rest
        (res.1 ++ res2.1, res2.2)

/-- The patch-building loop of `suggest_patches` in resume_overrides.py,
over `ats.missing_required`. -/
def suggestLoop (state : ResumeState) (overrides : Option Overrides) :
    (String → ℕ) → List String → List PatchOperation × (String → ℕ)
  | counts, [] => ([], counts)
  | counts, skill :: rest =>
    match findOverride overrides skill with
    | some entry =>
      let res := overrideRolesLoop state skill entry.proof_bullets counts
        entry.target_roles
      let res2 := suggestLoop state overrides res.2 rest
      (res.1 ++ res2.1, res2.2)
    | none =>
      if skill_already_present state skill then suggestLoop state overrides counts rest
      else
        let res2 := suggestLoop state overrides counts rest
        ({ section_ := "technical_skills", action := "insert", role_id := none,
           after_index := some ((state.sections.technical_skills.length : ℤ) - 1),
           bullet_index := none, new_bullet := "Exposure to " ++ skill,
           skill := some skill } :: res2.1, res2.2)

/-- The suggested patches before guardrailing, as built by `suggest_patches`
for a given `missing_required` list. -/
def suggested_patches (state : ResumeState) (missing_required : List String)
    (overrides : Option Overrides) : List PatchOperation :=
  (suggestLoop state overrides (fun _ => 0) missing_required).1

/-! Bound lemmas for the rounding function. -/

lemma pyRound_cases (q : ℚ) : pyRound q = ⌊q⌋ ∨ pyRound q = ⌊q⌋ + 1 := by
  unfold pyRound
  dsimp only
  split_ifs <;> simp

lemma pyRound_nonneg {q : ℚ} (h : 0 ≤ q) : 0 ≤ pyRound q := by
  have h0 : (0 : ℤ) ≤ ⌊q⌋ := Int.floor_nonneg.mpr h
  rcases pyRound_cases q with h1 | h1 <;> omega

lemma pyRound_le_of_le {q : ℚ} {c : ℤ} (h : q ≤ c) : pyRound q ≤ c := by
  have hfc : ⌊q⌋ ≤ c := by
    have := Int.floor_le_floor h
    simpa using this
  unfold pyRound
  dsimp only
  split_ifs with h1 h2 h3
  · exact hfc
  · rcases lt_or_eq_of_le hfc with hlt | heq
    · omega
    · exfalso
      have hq : q ≤ (⌊q⌋ : ℚ) := by rw [heq]; exact_mod_cast h
      have : q - ⌊q⌋ ≤ 0 := by linarith
      linarith
  · exact hfc
  · rcases lt_or_eq_of_le hfc with hlt | heq
    · omega
    · exfalso
      have hq : q ≤ (⌊q⌋ : ℚ) := by rw [heq]; exact_mod_cast h
      have h4 : ¬ (q - ⌊q⌋ < 1/2) := h1
      have : q - ⌊q⌋ ≤ 0 := by linarith
      linarith

lemma coverage_length (skills : List String) (state : ResumeState) (m : Bool) :
    (coverage_for_skills skills state m).length = skills.length := by
  simp [coverage_for_skills]

lemma clamp_bounds (x : ℤ) : 0 ≤ max 0 (min 100 x) ∧ max 0 (min 100 x) ≤ 100 := by
  omega

lemma roleScore_bounds {d t : ℕ} (hd : d ≤ t) (ht : t ≠ 0) :
    0 ≤ pyRound (((d : ℚ) / (t : ℚ)) * 100) ∧
    pyRound (((d : ℚ) / (t : ℚ)) * 100) ≤ 100 := by
  have htq : (0 : ℚ) < (t : ℚ) := by exact_mod_cast Nat.pos_of_ne_zero ht
  have h0 : (0 : ℚ) ≤ ((d : ℚ) / (t : ℚ)) * 100 := by positivity
  have h1 : ((d : ℚ) / (t : ℚ)) ≤ 1 := by
    rw [div_le_one htq]
    exact_mod_cast hd
  have h2 : ((d : ℚ) / (t : ℚ)) * 100 ≤ ((100 : ℤ) : ℚ) := by
    push_cast
    nlinarith
  exact ⟨pyRound_nonneg h0, pyRound_le_of_le h2⟩

lemma finalScoreRaw_bounds {kw role : ℤ} (h0 : 0 ≤ kw) (h1 : kw ≤ 100)
    (h2 : 0 ≤ role) (h3 : role ≤ 100) :
    0 ≤ finalScoreRaw kw role ∧ finalScoreRaw kw role ≤ 100 := by
  unfold finalScoreRaw
  have hq0 : (0 : ℚ) ≤ (kw : ℚ) * (6/10) + (role : ℚ) * (4/10) := by
    have : (0 : ℚ) ≤ (kw : ℚ) := by exact_mod_cast h0
    have : (0 : ℚ) ≤ (role : ℚ) := by exact_mod_cast h2
    nlinarith
  have hq1 : (kw : ℚ) * (6/10) + (role : ℚ) * (4/10) ≤ ((100 : ℤ) : ℚ) := by
    have ha : (kw : ℚ) ≤ 100 := by exact_mod_cast h1
    have hb : (role : ℚ) ≤ 100 := by exact_mod_cast h3
    push_cast
    nlinarith
  exact ⟨pyRound_nonneg hq0, pyRound_le_of_le hq1⟩

/-- C8: for every JD text, resume state, top_n_skills and strict_mode, the
returned keyword_score and ats_score are integers in [0, 100]. -/
theorem C8_scores_in_range (jd_text : String) (state : ResumeState)
    (top_n_skills : ℤ) (strict_mode : Bool) :
    0 ≤ (score_resume_against_jd jd_text state top_n_skills strict_mode).keyword_score ∧
    (score_resume_against_jd jd_text state top_n_skills strict_mode).keyword_score ≤ 100 ∧
    0 ≤ (score_resume_against_jd jd_text state top_n_skills strict_mode).ats_score ∧
    (score_resume_against_jd jd_text state top_n_skills strict_mode).ats_score ≤ 100 := by
  unfold score_resume_against_jd
  dsimp only
  set required := (extract_skills_from_jd jd_text top_n_skills).1 with hreq
  set reqCov := coverage_for_skills required state strict_mode with hcov
  set kwRaw := keywordScoreRaw (countCovered reqCov strict_mode)
    (countCovered (coverage_for_skills (extract_skills_from_jd jd_text top_n_skills).2
      state strict_mode) strict_mode)
    required.length (extract_skills_from_jd jd_text top_n_skills).2.length with hkwraw
  obtain ⟨hk0, hk1⟩ := clamp_bounds kwRaw
  have hrole : 0 ≤ (if required.length ≠ 0 then
      pyRound ((((reqCov.filter fun item => item.status == "direct").length : ℚ) /
        (required.length : ℚ)) * 100)
    else max 0 (min 100 kwRaw)) ∧
      (if required.length ≠ 0 then
      pyRound ((((reqCov.filter fun item => item.status == "direct").length : ℚ) /
        (required.length : ℚ)) * 100)
    else max 0 (min 100 kwRaw)) ≤ 100 := by
    split_ifs with ht
    · have hd : (reqCov.filter fun item => item.status == "direct").length ≤ required.length := by
        calc (reqCov.filter fun item => item.status == "direct").length
            ≤ reqCov.length := List.length_filter_le _ _
          _ = required.length := by rw [hcov, coverage_length]
      exact roleScore_bounds hd ht
    · exact ⟨hk0, hk1⟩
  obtain ⟨hr0, hr1⟩ := hrole
  obtain ⟨hf0, hf1⟩ := finalScoreRaw_bounds hk0 hk1 hr0 hr1
  refine ⟨hk0, hk1, ?_, ?_⟩ <;> split_ifs at hf0 hf1 ⊢ <;> omega

/-- C1: whenever at least one must-have domain token detected in the JD text
lacks direct resume evidence, the returned ats_score is at most 40 and
capped_reason is set, regardless of the other scores. -/
theorem C1_must_have_gate_caps_score (jd_text : String) (state : ResumeState)
    (top_n_skills : ℤ) (strict_mode : Bool)
    (h : ∃ kw ∈ mustHaveGates jd_text, has_direct_evidence state kw = false) :
    (score_resume_against_jd jd_text state top_n_skills strict_mode).ats_score ≤ 40 ∧
    ∃ s, (score_resume_against_jd jd_text state top_n_skills strict_mode).capped_reason
      = some s := by
  obtain ⟨kw, hmem, hev⟩ := h
  have hne : (mustHaveGates jd_text).filter
      (fun skill => ¬ has_direct_evidence state skill) ≠ [] := by
    intro hempty
    have : kw ∈ (mustHaveGates jd_text).filter
        (fun skill => ¬ has_direct_evidence state skill) := by
      rw [List.mem_filter]
      exact ⟨hmem, by simp [hev]⟩
    rw [hempty] at this
    exact absurd this (List.not_mem_nil kw)
  unfold score_resume_against_jd
  dsimp only
  rw [if_pos hne, if_pos hne]
  exact ⟨min_le_right _ _, ⟨_, rfl⟩⟩

/-- A concrete empty resume state for witnesses. -/
def stateEmpty : ResumeState :=
  { sections := { professional_summary := "", technical_skills := [],
                  experience := [], education := [] } }

theorem C1_must_have_gate_caps_score_witness :
    (score_resume_against_jd "SCADA" stateEmpty 25 true).ats_score ≤ 40 ∧
    ∃ s, (score_resume_against_jd "SCADA" stateEmpty 25 true).capped_reason = some s :=
  C1_must_have_gate_caps_score "SCADA" stateEmpty 25 true
    ⟨"scada", by decide, by decide⟩

/-! Lemmas on evidence collection for the coverage invariant. -/

lemma evidenceMatch_direct (c : String) (strict : Bool) (t : String) :
    evidenceMatch c strict true t = matchesDirect c t := by
  simp [evidenceMatch]

lemma mem_find_evidence_direct {skill : String} {state : ResumeState}
    {sl kl : List String} {strict : Bool} {ev : SkillEvidence}
    (h : ev ∈ find_evidence skill state sl kl strict true) :
    matchesDirect (strLower skill) ev.snippet = true := by
  unfold find_evidence at h
  dsimp only at h
  rcases List.mem_append.mp h with h1 | h1
  · rcases List.mem_append.mp h1 with h2 | h2
    · obtain ⟨line, hline, rfl⟩ := List.mem_map.mp h2
      have := (List.mem_filter.mp hline).2
      rwa [evidenceMatch_direct] at this
    · obtain ⟨line, hline, rfl⟩ := List.mem_map.mp h2
      have := (List.mem_filter.mp hline).2
      rwa [evidenceMatch_direct] at this
  · obtain ⟨role, _, h3⟩ := List.mem_flatMap.mp h1
    obtain ⟨p, hp, rfl⟩ := List.mem_map.mp h3
    have := (List.mem_filter.mp hp).2
    rwa [evidenceMatch_direct] at this

lemma direct_nonempty_of_loose_direct {skill : String} {state : ResumeState}
    {sl kl : List String} {strict : Bool} {ev : SkillEvidence}
    (h : ev ∈ find_evidence skill state sl kl strict false)
    (hd : matchesDirect (strLower skill) ev.snippet = true) :
    find_evidence skill state sl kl strict true ≠ [] := by
  unfold find_evidence at h ⊢
  dsimp only at h ⊢
  rcases List.mem_append.mp h with h1 | h1
  · rcases List.mem_append.mp h1 with h2 | h2
    · obtain ⟨line, hline, rfl⟩ := List.mem_map.mp h2
      have hmem : line ∈ sl := (List.mem_filter.mp hline).1
      apply List.ne_nil_of_mem (a :=
        ({ section_ := "summary", role_id := none, bullet_index := none,
           snippet := line } : SkillEvidence))
      refine List.mem_append.mpr (Or.inl (List.mem_append.mpr (Or.inl ?_)))
      exact List.mem_map.mpr ⟨line, List.mem_filter.mpr
        ⟨hmem, by rw [evidenceMatch_direct]; exact hd⟩, rfl⟩
    · obtain ⟨line, hline, rfl⟩ := List.mem_map.mp h2
      have hmem : line ∈ kl := (List.mem_filter.mp hline).1
      apply List.ne_nil_of_mem (a :=
        ({ section_ := "technical_skills", role_id := none, bullet_index := none,
           snippet := line } : SkillEvidence))
      refine List.mem_append.mpr (Or.inl (List.mem_append.mpr (Or.inr ?_)))
      exact List.mem_map.mpr ⟨line, List.mem_filter.mpr
        ⟨hmem, by rw [evidenceMatch_direct]; exact hd⟩, rfl⟩
  · obtain ⟨role, hrole, h3⟩ := List.mem_flatMap.mp h1
    obtain ⟨p, hp, rfl⟩ := List.mem_map.mp h3
    have hmem : p ∈ role.bullets.enum := (List.mem_filter.mp hp).1
    apply List.ne_nil_of_mem (a :=
      ({ section_ := "experience", role_id := some role.role_id,
         bullet_index := some p.1, snippet := p.2 } : SkillEvidence))
    refine List.mem_append.mpr (Or.inr ?_)
    refine List.mem_flatMap.mpr ⟨role, hrole, ?_⟩
    exact List.mem_map.mpr ⟨p, List.mem_filter.mpr
      ⟨hmem, by rw [evidenceMatch_direct]; exact hd⟩, rfl⟩

/-- C3: every SkillCoverage produced by the coverage scorer has
status "direct" exactly when its evidence holds an exact token-boundary
match, and status "missing" exactly when its evidence is empty. -/
theorem C3_coverage_status_invariant (skills : List String) (state : ResumeState)
    (strict_mode : Bool) :
    ∀ cov ∈ coverage_for_skills skills state strict_mode,
      (cov.status = "direct" ↔
        ∃ ev ∈ cov.evidence, matchesDirect (strLower cov.skill) ev.snippet = true) ∧
      (cov.status = "missing" ↔ cov.evidence = []) := by
  intro cov hcov
  obtain ⟨skill, _, rfl⟩ := List.mem_map.mp hcov
  unfold coverageForSkill
  by_cases h1 : find_evidence skill state (summaryLines state)
      state.sections.technical_skills strict_mode true ≠ []
  · rw [if_pos h1]
    dsimp only
    refine ⟨⟨fun _ => ?_, fun _ => rfl⟩,
      ⟨fun hcontr => absurd hcontr (by decide), fun hcontr => absurd hcontr h1⟩⟩
    obtain ⟨ev, hev⟩ := List.exists_mem_of_ne_nil _ h1
    exact ⟨ev, hev, mem_find_evidence_direct hev⟩
  · rw [if_neg h1]
    have hdirect_nil : find_evidence skill state (summaryLines state)
        state.sections.technical_skills strict_mode true = [] := by
      by_contra hne
      exact h1 hne
    by_cases h2 : (!strict_mode) = true ∧ find_evidence skill state (summaryLines state)
        state.sections.technical_skills strict_mode false ≠ []
    · rw [if_pos h2]
      dsimp only
      constructor
      · constructor
        · intro hcontr; exact absurd hcontr (by decide)
        · rintro ⟨ev, hev, hd⟩
          exact absurd hdirect_nil (direct_nonempty_of_loose_direct hev hd)
      · constructor
        · intro hcontr; exact absurd hcontr (by decide)
        · intro hcontr; exact absurd hcontr h2.2
    · rw [if_neg h2]
      dsimp only
      refine ⟨⟨fun hcontr => absurd hcontr (by decide), fun hcontr => ?_⟩,
        ⟨fun _ => rfl, fun _ => rfl⟩⟩
      obtain ⟨ev, hev, _⟩ := hcontr
      exact absurd hev (List.not_mem_nil ev)

/-- A concrete state for the C3 witness. -/
def statePy : ResumeState :=
  { sections := { professional_summary := "", technical_skills := ["Python"],
                  experience := [], education := [] } }

/-- The single coverage record for ["Python"] over statePy. -/
def covPy : SkillCoverage :=
  coverageForSkill statePy (summaryLines statePy) statePy.sections.technical_skills
    true "Python"

theorem C3_coverage_status_invariant_witness :
    (covPy.status = "direct" ↔
      ∃ ev ∈ covPy.evidence, matchesDirect (strLower covPy.skill) ev.snippet = true) ∧
    (covPy.status = "missing" ↔ covPy.evidence = []) :=
  C3_coverage_status_invariant ["Python"] statePy true covPy (by decide)

/-! Characterization of the guardrail loop as filter / filterMap. -/

lemma guardrailLoop_fst (mr os ds : List String) (state : ResumeState)
    (jd : Option String) (mode : String) (ps : List PatchOperation) :
    (guardrailLoop mr os ds state jd mode ps).1 =
      ps.filter fun p => (guardrailBlock mr os ds state jd mode p).isNone := by
  induction ps with
  | nil => rfl
  | cons p rest ih =>
    simp only [guardrailLoop, List.filter_cons]
    cases h : guardrailBlock mr os ds state jd mode p <;> simp [h, ih]

lemma guardrailLoop_snd (mr os ds : List String) (state : ResumeState)
    (jd : Option String) (mode : String) (ps : List PatchOperation) :
    (guardrailLoop mr os ds state jd mode ps).2 =
      ps.filterMap (guardrailBlock mr os ds state jd mode) := by
  induction ps with
  | nil => rfl
  | cons p rest ih =>
    simp only [guardrailLoop, List.filterMap_cons]
    cases h : guardrailBlock mr os ds state jd mode p <;> simp [h, ih]

/-- A patch the strict mode lets through is also let through by the balanced
mode (their experience conditions coincide; strict adds one more block). -/
lemma guardrailBlock_strict_none_imp_balanced {mr os ds : List String}
    {state : ResumeState} {jd : Option String} {p : PatchOperation}
    (h : guardrailBlock mr os ds state jd "strict" p = none) :
    guardrailBlock mr os ds state jd "balanced" p = none := by
  unfold guardrailBlock at h ⊢
  dsimp only at h ⊢
  split_ifs at h ⊢ <;> simp_all

/-- C2: truth-mode permissiveness is monotone: off passes everything
unchanged and blocks nothing; a patch blocked under balanced is blocked
under strict; a patch allowed under strict is allowed under balanced and
off. -/
theorem C2_truth_mode_monotone (suggestions : List PatchOperation)
    (ats : AtsScoreResponse) (overrides : Option Overrides)
    (state : ResumeState) (jd : Option String) :
    (apply_truth_guardrails suggestions ats overrides "off" state jd).1 = suggestions ∧
    (apply_truth_guardrails suggestions ats overrides "off" state jd).2 = [] ∧
    (∀ p ∈ suggestions,
      p ∉ (apply_truth_guardrails suggestions ats overrides "balanced" state jd).1 →
      p ∉ (apply_truth_guardrails suggestions ats overrides "strict" state jd).1) ∧
    (∀ p ∈ (apply_truth_guardrails suggestions ats overrides "strict" state jd).1,
      p ∈ (apply_truth_guardrails suggestions ats overrides "balanced" state jd).1 ∧
      p ∈ (apply_truth_guardrails suggestions ats overrides "off" state jd).1) := by
  refine ⟨rfl, rfl, ?_, ?_⟩
  · intro p hp hbal hstr
    apply hbal
    unfold apply_truth_guardrails at hstr ⊢
    rw [if_neg (by decide)] at hstr
    rw [if_neg (by decide)]
    rw [guardrailLoop_fst] at hstr
    rw [guardrailLoop_fst]
    rw [List.mem_filter] at hstr
    rw [List.mem_filter]
    refine ⟨hp, ?_⟩
    have hnone : guardrailBlock (ats.missing_required.map strLower)
        (overrideSkillSet overrides)
        ((ats.required.filter (·.direct_from_resume)).map
          fun cov => strLower (pyStrip cov.skill)) state jd "strict" p = none := by
      cases h : guardrailBlock (ats.missing_required.map strLower)
          (overrideSkillSet overrides)
          ((ats.required.filter (·.direct_from_resume)).map
            fun cov => strLower (pyStrip cov.skill)) state jd "strict" p with
      | none => rfl
      | some bs => rw [h] at hstr; simp at hstr
    have := guardrailBlock_strict_none_imp_balanced hnone
    simp [this]
  · intro p hp
    unfold apply_truth_guardrails at hp ⊢
    rw [if_neg (by decide)] at hp
    rw [guardrailLoop_fst] at hp
    rw [List.mem_filter] at hp
    obtain ⟨hmem, hallow⟩ := hp
    constructor
    · rw [if_neg (by decide), guardrailLoop_fst, List.mem_filter]
      refine ⟨hmem, ?_⟩
      have hnone : guardrailBlock (ats.missing_required.map strLower)
          (overrideSkillSet overrides)
          ((ats.required.filter (·.direct_from_resume)).map
            fun cov => strLower (pyStrip cov.skill)) state jd "strict" p = none := by
        cases h : guardrailBlock (ats.missing_required.map strLower)
            (overrideSkillSet overrides)
            ((ats.required.filter (·.direct_from_resume)).map
              fun cov => strLower (pyStrip cov.skill)) state jd "strict" p with
        | none => rfl
        | some bs => rw [h] at hallow; simp at hallow
      have := guardrailBlock_strict_none_imp_balanced hnone
      simp [this]
    · rw [if_pos (by decide)]
      exact hmem

/-- A concrete patch and ATS report for the C2 witness. -/
def patchW : PatchOperation :=
  { section_ := "experience", action := "insert", role_id := some "r1",
    after_index := some 0, bullet_index := none, new_bullet := "x",
    skill := some "SQL" }

def atsW : AtsScoreResponse :=
  { ats_score := 0, keyword_score := 0, role_score := 0, capped_reason := none,
    missing_must_have := none, required := [], preferred := [],
    missing_required := [], missing_preferred := [] }

theorem C2_truth_mode_monotone_witness :
    patchW ∈ (apply_truth_guardrails [patchW] atsW none "balanced" stateEmpty none).1 ∧
    patchW ∈ (apply_truth_guardrails [patchW] atsW none "off" stateEmpty none).1 :=
  (C2_truth_mode_monotone [patchW] atsW none stateEmpty none).2.2.2 patchW (by decide)

/-- C4: under strict truth mode, a suggested technical_skills insertion
patch whose skill has no direct evidence (neither in the report's direct
set nor resume-wide) and no override is removed from the returned patches,
and a BlockedSuggestion with recommended_action "downgrade_to_exposure" is
emitted for that skill. -/
theorem C4_strict_blocks_unevidenced_skill_patch (suggestions : List PatchOperation)
    (ats : AtsScoreResponse) (overrides : Option Overrides)
    (state : ResumeState) (jd : Option String) (p : PatchOperation)
    (hmem : p ∈ suggestions)
    (hsec : p.section_ = "technical_skills")
    (hact : p.action = "insert")
    (hsk : pyStrip (p.skill.getD "") ≠ "")
    (hdir1 : ((ats.required.filter (·.direct_from_resume)).map
      (fun cov => strLower (pyStrip cov.skill))).contains
        (strLower (pyStrip (p.skill.getD ""))) = false)
    (hdir2 : has_direct_evidence state (strLower (pyStrip (p.skill.getD ""))) = false)
    (hov : (overrideSkillSet overrides).contains
      (strLower (pyStrip (p.skill.getD ""))) = false) :
    p ∉ (apply_truth_guardrails suggestions ats overrides "strict" state jd).1 ∧
    ∃ bs ∈ (apply_truth_guardrails suggestions ats overrides "strict" state jd).2,
      bs.skill = pyStrip (p.skill.getD "") ∧
      bs.recommended_action = "downgrade_to_exposure" := by
  have hblock : guardrailBlock (ats.missing_required.map strLower)
      (overrideSkillSet overrides)
      ((ats.required.filter (·.direct_from_resume)).map
        fun cov => strLower (pyStrip cov.skill)) state jd "strict" p =
      some (buildBlockedSuggestion (pyStrip (p.skill.getD ""))
        "No direct or override evidence; cannot add to technical skills in strict mode."
        "downgrade_to_exposure" state jd) := by
    unfold guardrailBlock
    dsimp only
    simp only [if_pos hsk]
    rw [if_neg, if_pos]
    · refine ⟨rfl, by simp [hsec], ?_⟩
      intro hcontr
      rw [hdir1, hdir2, hov] at hcontr
      simp at hcontr
    · intro hcontr
      rw [hsec] at hcontr
      exact absurd hcontr.2.1 (by decide)
  constructor
  · intro hp
    unfold apply_truth_guardrails at hp
    rw [if_neg (by decide), guardrailLoop_fst, List.mem_filter] at hp
    rw [hblock] at hp
    simp at hp
  · unfold apply_truth_guardrails
    rw [if_neg (by decide), guardrailLoop_snd]
    refine ⟨buildBlockedSuggestion (pyStrip (p.skill.getD ""))
      "No direct or override evidence; cannot add to technical skills in strict mode."
      "downgrade_to_exposure" state jd,
      List.mem_filterMap.mpr ⟨p, hmem, hblock⟩, rfl, rfl⟩

/-- The C4 witness patch: a Kubernetes exposure suggestion. -/
def patchK8s : PatchOperation :=
  { section_ := "technical_skills", action := "insert", role_id := none,
    after_index := some (-1), bullet_index := none,
    new_bullet := "Exposure to Kubernetes", skill := some "Kubernetes" }

theorem C4_strict_blocks_unevidenced_skill_patch_witness :
    patchK8s ∉ (apply_truth_guardrails [patchK8s] atsW none "strict" stateEmpty none).1 ∧
    ∃ bs ∈ (apply_truth_guardrails [patchK8s] atsW none "strict" stateEmpty none).2,
      bs.skill = pyStrip (patchK8s.skill.getD "") ∧
      bs.recommended_action = "downgrade_to_exposure" :=
  C4_strict_blocks_unevidenced_skill_patch [patchK8s] atsW none stateEmpty none patchK8s
    (by decide) (by decide) (by decide) (by decide) (by decide) (by decide) (by decide)

/-! Patch-application lemmas. -/

lemma updateFirstRole_append {rid : String} {f : Role → Except PatchError Role}
    {pre post : List Role} {r : Role}
    (hpre : ∀ r' ∈ pre, r'.role_id ≠ rid) (hr : r.role_id = rid) :
    updateFirstRole rid f (pre ++ r :: post) =
      (f r).map (fun r2 => pre ++ r2 :: post) := by
  induction pre with
  | nil =>
    cases hfr : f r <;> simp [updateFirstRole, hr, hfr]
  | cons q pre ih =>
    have hq : q.role_id ≠ rid := hpre q (List.mem_cons_self q pre)
    have hih := ih fun r' h => hpre r' (List.mem_cons_of_mem q h)
    simp only [List.cons_append, updateFirstRole, List.append_eq]
    rw [if_neg (by simp [hq]), hih]
    cases f r <;> rfl

/-- C7: on an experience patch, an insert anchored at the last bullet index
appends; a replace at an index outside [0, len(bullets)) yields the
out-of-range IndexError; and a replace on the technical_skills section
yields the insert-only ValueError. -/
theorem C7_patch_application_edges (state : ResumeState) (p : PatchOperation)
    (rid : String) (pre post : List Role) (r : Role)
    (hexp : state.sections.experience = pre ++ r :: post)
    (hpre : ∀ r' ∈ pre, r'.role_id ≠ rid) (hr : r.role_id = rid) (hrid : rid ≠ "")
    (hsec : p.section_ = "experience") (hpid : p.role_id = some rid) :
    (p.action = "insert" → p.after_index = some ((r.bullets.length : ℤ) - 1) →
      applyOnePatch state p = .ok { state with sections :=
        { state.sections with experience :=
          pre ++ { r with bullets := r.bullets ++ [cleanBullet p.new_bullet] } :: post } }) ∧
    (p.action = "replace" →
      (∀ bi, p.bullet_index = some bi → bi < 0 ∨ (r.bullets.length : ℤ) ≤ bi) →
      applyOnePatch state p = .error (.indexError "bullet_index out of range")) ∧
    (∀ q : PatchOperation, q.section_ = "technical_skills" → q.action = "replace" →
      applyOnePatch state q =
        .error (.valueError "Only insert is supported for technical_skills")) := by
  have hdispatch : applyOnePatch state p = applyExperiencePatch state p := by
    unfold applyOnePatch
    rw [if_neg (by simp [hsec])]
  have hfind : applyExperiencePatch state p =
      (applyExpToRole p r).map (fun r2 => { state with sections :=
        { state.sections with experience := pre ++ r2 :: post } }) := by
    unfold applyExperiencePatch
    rw [hpid]
    dsimp only
    rw [if_neg (by simpa using hrid), hexp, updateFirstRole_append hpre hr]
    cases applyExpToRole p r <;> rfl
  refine ⟨?_, ?_, ?_⟩
  · intro hact hidx
    have hrole : applyExpToRole p r =
        .ok { r with bullets := r.bullets ++ [cleanBullet p.new_bullet] } := by
      unfold applyExpToRole
      rw [if_neg (by simp [hact]), if_pos (by simp [hact]), hidx]
      dsimp only [Option.getD]
      rw [if_neg (by omega)]
      have hn : ((r.bullets.length : ℤ) - 1 + 1).toNat = r.bullets.length := by omega
      rw [hn, List.insertIdx_length_self]
    rw [hdispatch, hfind, hrole]
    rfl
  · intro hact hbi
    have hrole : applyExpToRole p r = .error (.indexError "bullet_index out of range") := by
      unfold applyExpToRole
      rw [if_pos (by simp [hact])]
      cases hb : p.bullet_index with
      | none => rfl
      | some bi =>
        have hrange := hbi bi hb
        dsimp only
        rw [if_pos (by omega)]
    rw [hdispatch, hfind, hrole]
    rfl
  · intro q hqsec hqact
    unfold applyOnePatch
    rw [if_pos (by simp [hqsec])]
    unfold applySkillPatch
    rw [if_pos (by simp [hqact])]

/-- A one-role state for the C7 witness. -/
def stateOneRole : ResumeState :=
  { sections := { professional_summary := "",
                  technical_skills := ["Python"],
                  experience := [{ role_id := "r1", company := "Acme",
                                   title := "Engineer", dates := "2020",
                                   location := "NY", bullets := ["did a thing"] }],
                  education := [] } }

def patchInsEnd : PatchOperation :=
  { section_ := "experience", action := "insert", role_id := some "r1",
    after_index := some 0, bullet_index := none, new_bullet := "new bullet",
    skill := none }

def patchReplOut : PatchOperation :=
  { section_ := "experience", action := "replace", role_id := some "r1",
    after_index := none, bullet_index := some 1, new_bullet := "x", skill := none }

def patchSkillRepl : PatchOperation :=
  { section_ := "technical_skills", action := "replace", role_id := none,
    after_index := none, bullet_index := some 0, new_bullet := "x", skill := none }

def roleR1 : Role :=
  { role_id := "r1", company := "Acme", title := "Engineer", dates := "2020",
    location := "NY", bullets := ["did a thing"] }

theorem C7_patch_application_edges_witness :
    (applyOnePatch stateOneRole patchInsEnd = .ok { stateOneRole with sections :=
      { stateOneRole.sections with experience :=
        [] ++ { roleR1 with bullets := roleR1.bullets ++
          [cleanBullet patchInsEnd.new_bullet] } :: [] } }) ∧
    (applyOnePatch stateOneRole patchReplOut =
      .error (.indexError "bullet_index out of range")) ∧
    (applyOnePatch stateOneRole patchSkillRepl =
      .error (.valueError "Only insert is supported for technical_skills")) := by
  have h := C7_patch_application_edges stateOneRole patchInsEnd "r1" [] [] roleR1
    rfl (by intro r' h; exact absurd h (List.not_mem_nil r'))
    rfl (by decide) rfl rfl
  have h2 := C7_patch_application_edges stateOneRole patchReplOut "r1" [] [] roleR1
    rfl (by intro r' h; exact absurd h (List.not_mem_nil r'))
    rfl (by decide) rfl rfl
  refine ⟨h.1 rfl rfl, h2.2.1 rfl ?_, h.2.2 patchSkillRepl rfl rfl⟩
  intro bi hbi
  have hb1 : patchReplOut.bullet_index = some 1 := rfl
  rw [hb1] at hbi
  injection hbi with hbi2
  right
  rw [← hbi2]
  decide

/-! Frame lemmas: what each patch operation leaves untouched. -/

/-- The non-bullet fields of a role. -/
def roleHeader (r : Role) : String × String × String × String × String :=
  (r.role_id, r.company, r.title, r.dates, r.location)

lemma applyExpToRole_ok_header {p : PatchOperation} {r r2 : Role}
    (h : applyExpToRole p r = .ok r2) : roleHeader r2 = roleHeader r := by
  unfold applyExpToRole at h
  dsimp only at h
  repeat' split at h
  all_goals first
    | exact Except.noConfusion h
    | (injection h with h3; rw [← h3]; all_goals rfl)

lemma updateFirstRole_headers {rid : String} {f : Role → Except PatchError Role}
    (hf : ∀ r r2, f r = .ok r2 → roleHeader r2 = roleHeader r) :
    ∀ {roles roles2 : List Role}, updateFirstRole rid f roles = .ok roles2 →
      roles2.map roleHeader = roles.map roleHeader := by
  intro roles
  induction roles with
  | nil => intro roles2 h; exact Except.noConfusion h
  | cons r rest ih =>
    intro roles2 h
    unfold updateFirstRole at h
    split at h
    · cases hfr : f r with
      | error e => rw [hfr] at h; exact Except.noConfusion h
      | ok r2 =>
        rw [hfr] at h
        injection h with h2
        rw [← h2]
        simp [hf r r2 hfr]
    · cases hrest : updateFirstRole rid f rest with
      | error e => rw [hrest] at h; exact Except.noConfusion h
      | ok rest2 =>
        rw [hrest] at h
        injection h with h2
        rw [← h2]
        simp [ih hrest]

lemma updateFirstRole_filter {rid rid' : String} (hne : rid' ≠ rid)
    {f : Role → Except PatchError Role}
    (hf : ∀ r r2, f r = .ok r2 → r2.role_id = r.role_id) :
    ∀ {roles roles2 : List Role}, updateFirstRole rid f roles = .ok roles2 →
      roles2.filter (fun r => r.role_id == rid') =
        roles.filter (fun r => r.role_id == rid') := by
  intro roles
  induction roles with
  | nil => intro roles2 h; exact Except.noConfusion h
  | cons r rest ih =>
    intro roles2 h
    unfold updateFirstRole at h
    split at h
    case isTrue hcond =>
      cases hfr : f r with
      | error e => rw [hfr] at h; exact Except.noConfusion h
      | ok r2 =>
        rw [hfr] at h
        injection h with h2
        rw [← h2]
        have hrid : r.role_id = rid := by simpa using hcond
        have hr2 : r2.role_id = rid := (hf r r2 hfr).trans hrid
        rw [List.filter_cons, List.filter_cons]
        rw [if_neg (by simp [hr2, Ne.symm hne]), if_neg (by simp [hrid, Ne.symm hne])]
    case isFalse hcond =>
      cases hrest : updateFirstRole rid f rest with
      | error e => rw [hrest] at h; exact Except.noConfusion h
      | ok rest2 =>
        rw [hrest] at h
        injection h with h2
        rw [← h2]
        rw [List.filter_cons, List.filter_cons, ih hrest]

lemma applyOnePatch_ok_frame {state : ResumeState} {p : PatchOperation}
    {state2 : ResumeState} (h : applyOnePatch state p = .ok state2) :
    state2.sections.professional_summary = state.sections.professional_summary ∧
    state2.sections.education = state.sections.education ∧
    state2.sections.experience.map roleHeader =
      state.sections.experience.map roleHeader ∧
    (p.section_ ≠ "technical_skills" →
      state2.sections.technical_skills = state.sections.technical_skills) ∧
    (∀ rid', p.section_ = "technical_skills" ∨ p.role_id ≠ some rid' →
      state2.sections.experience.filter (fun r => r.role_id == rid') =
        state.sections.experience.filter (fun r => r.role_id == rid')) := by
  unfold applyOnePatch at h
  split at h
  case isTrue htech =>
    have htech2 : p.section_ = "technical_skills" := by simpa using htech
    unfold applySkillPatch at h
    dsimp only at h
    split at h
    · exact Except.noConfusion h
    · split at h
      · exact Except.noConfusion h
      · injection h with h2
        rw [← h2]
        exact ⟨rfl, rfl, rfl, fun hcontr => absurd htech2 hcontr, fun _ _ => rfl⟩
  case isFalse htech =>
    have htech2 : p.section_ ≠ "technical_skills" := by simpa using htech
    unfold applyExperiencePatch at h
    cases hrid : p.role_id with
    | none => rw [hrid] at h; exact Except.noConfusion h
    | some rid =>
      rw [hrid] at h
      dsimp only at h
      split at h
      · exact Except.noConfusion h
      · cases hup : updateFirstRole rid (applyExpToRole p) state.sections.experience with
        | error e => rw [hup] at h; exact Except.noConfusion h
        | ok exp2 =>
          rw [hup] at h
          injection h with h2
          rw [← h2]
          refine ⟨rfl, rfl, ?_, fun _ => rfl, ?_⟩
          · exact updateFirstRole_headers
              (fun r r2 hr => applyExpToRole_ok_header hr) hup
          · intro rid' hcase
            rcases hcase with hcase | hcase
            · exact absurd hcase htech2
            · have hne : rid' ≠ rid := fun hcontr => hcase (by rw [hcontr])
              exact updateFirstRole_filter hne
                (fun r r2 hr => congrArg (fun x => x.1) (applyExpToRole_ok_header hr)) hup

/-- C10: apply_patches_to_state only mutates what its patches target: the
professional summary, education, and every role's non-bullet fields are
always unchanged (also when application stops at an error); the
technical_skills list is unchanged when no patch targets that section; and
the bullets of roles named by no experience patch are unchanged. -/
theorem C10_apply_patches_frame (state : ResumeState) (patches : List PatchOperation) :
    (apply_patches_to_state state patches).1.sections.professional_summary =
      state.sections.professional_summary ∧
    (apply_patches_to_state state patches).1.sections.education =
      state.sections.education ∧
    (apply_patches_to_state state patches).1.sections.experience.map roleHeader =
      state.sections.experience.map roleHeader ∧
    ((∀ p ∈ patches, p.section_ ≠ "technical_skills") →
      (apply_patches_to_state state patches).1.sections.technical_skills =
        state.sections.technical_skills) ∧
    (∀ rid', (∀ p ∈ patches, p.section_ = "technical_skills" ∨ p.role_id ≠ some rid') →
      (apply_patches_to_state state patches).1.sections.experience.filter
          (fun r => r.role_id == rid') =
        state.sections.experience.filter (fun r => r.role_id == rid')) := by
  induction patches generalizing state with
  | nil => exact ⟨rfl, rfl, rfl, fun _ => rfl, fun _ _ => rfl⟩
  | cons p rest ih =>
    simp only [apply_patches_to_state]
    cases happ : applyOnePatch state p with
    | error e => exact ⟨rfl, rfl, rfl, fun _ => rfl, fun _ _ => rfl⟩
    | ok s2 =>
      obtain ⟨hs, he, hh, ht, hf⟩ := applyOnePatch_ok_frame happ
      obtain ⟨ihs, ihe, ihh, iht, ihf⟩ := ih s2
      refine ⟨ihs.trans hs, ihe.trans he, ihh.trans hh, ?_, ?_⟩
      · intro hall
        exact (iht fun q hq => hall q (List.mem_cons_of_mem p hq)).trans
          (ht (hall p (List.mem_cons_self p rest)))
      · intro rid' hall
        exact (ihf rid' fun q hq => hall q (List.mem_cons_of_mem p hq)).trans
          (hf rid' (hall p (List.mem_cons_self p rest)))

theorem C10_apply_patches_frame_witness :
    (apply_patches_to_state stateOneRole [patchInsEnd]).1.sections.professional_summary =
      stateOneRole.sections.professional_summary ∧
    (apply_patches_to_state stateOneRole [patchInsEnd]).1.sections.education =
      stateOneRole.sections.education ∧
    (apply_patches_to_state stateOneRole [patchInsEnd]).1.sections.experience.map
      roleHeader = stateOneRole.sections.experience.map roleHeader ∧
    (apply_patches_to_state stateOneRole [patchInsEnd]).1.sections.technical_skills =
      stateOneRole.sections.technical_skills ∧
    (apply_patches_to_state stateOneRole [patchInsEnd]).1.sections.experience.filter
        (fun r => r.role_id == "r2") =
      stateOneRole.sections.experience.filter (fun r => r.role_id == "r2") := by
  have h := C10_apply_patches_frame stateOneRole [patchInsEnd]
  exact ⟨h.1, h.2.1, h.2.2.1, h.2.2.2.1 (by decide), h.2.2.2.2 "r2" (by decide)⟩

/-- An occurrence of the token in the text (both case-folded) that is
neither immediately preceded nor immediately followed by a word character
(out-of-range positions count as non-word). -/
def tokenBoundaryOccurrence (text token : String) (i : ℕ) : Prop :=
  i + (token.data.map Char.toLower).length ≤ (text.data.map Char.toLower).length ∧
  ((text.data.map Char.toLower).drop i).take (token.data.map Char.toLower).length =
    token.data.map Char.toLower ∧
  (i = 0 ∨ isWordChar ((text.data.map Char.toLower).getD (i - 1) ' ') = false) ∧
  isWordChar ((text.data.map Char.toLower).getD
    (i + (token.data.map Char.toLower).length) ' ') = false

/-- C9: token matching is case-insensitive and boundary-respecting: for a
non-empty token, _has_token succeeds exactly when some occurrence of the
token is not flanked by word characters; in particular "SQL" matches
"Uses SQL daily" but neither "MySQL" nor "SQLite". -/
theorem C9_token_matching (text token : String) :
    (token ≠ "" →
      (hasToken text token = true ↔ ∃ i, tokenBoundaryOccurrence text token i)) ∧
    hasToken "Uses SQL daily" "SQL" = true ∧
    hasToken "MySQL" "SQL" = false ∧
    hasToken "SQLite" "SQL" = false := by
  refine ⟨fun htok => ?_, by decide, by decide, by decide⟩
  have hk : token.data ≠ [] := by
    intro hc
    apply htok
    cases token with
    | mk l => simp only at hc; rw [hc]
  have hkpos : 0 < (token.data.map Char.toLower).length := by
    simpa using List.length_pos.mpr hk
  unfold hasToken
  rw [if_neg (by simpa using hk)]
  dsimp only
  rw [List.any_eq_true]
  constructor
  · rintro ⟨i, hmem, hp⟩
    rw [Bool.and_eq_true, Bool.and_eq_true] at hp
    obtain ⟨⟨h1, h2⟩, h3⟩ := hp
    have htake := eq_of_beq h1
    have hlenle : (token.data.map Char.toLower).length ≤
        (text.data.map Char.toLower).length - i := by
      have := congrArg List.length htake
      simp only [List.length_take, List.length_drop] at this
      omega
    rw [Bool.not_eq_true'] at h3
    rw [Bool.or_eq_true] at h2
    refine ⟨i, by omega, htake, ?_, h3⟩
    rcases h2 with h | h
    · exact Or.inl (by simpa using h)
    · rw [Bool.not_eq_true'] at h
      exact Or.inr h
  · rintro ⟨i, hlen, htake, hbefore, hafter⟩
    refine ⟨i, List.mem_range.mpr (by omega), ?_⟩
    rw [Bool.and_eq_true, Bool.and_eq_true, Bool.or_eq_true, Bool.not_eq_true',
      Bool.not_eq_true']
    refine ⟨⟨beq_iff_eq.mpr htake, ?_⟩, hafter⟩
    rcases hbefore with h | h
    · exact Or.inl (by simpa using h)
    · exact Or.inr h

theorem C9_token_matching_witness :
    ∃ i, tokenBoundaryOccurrence "Uses SQL daily" "SQL" i :=
  ((C9_token_matching "Uses SQL daily" "SQL").1 (by decide)).mp (by decide)

/-! The `(-score, role_id)` sort order as a proposition, and correctness of
the stable insertion sort used in the embedding. -/

def keyLEProp (a b : ℕ × String) : Prop := b.1 < a.1 ∨ (a.1 = b.1 ∧ a.2 ≤ b.2)

lemma keyLEProp_trans : ∀ {a b c : ℕ × String},
    keyLEProp a b → keyLEProp b c → keyLEProp a c := by
  rintro a b c (h1 | ⟨h1, h1s⟩) (h2 | ⟨h2, h2s⟩)
  · exact Or.inl (by omega)
  · exact Or.inl (by omega)
  · exact Or.inl (by omega)
  · exact Or.inr ⟨by omega, le_trans h1s h2s⟩

lemma charListLT_iff : ∀ (as bs : List Char), charListLT as bs = true ↔ as < bs
  | [], [] => by
    refine iff_of_false (by simp [charListLT]) ?_
    intro h
    cases h
  | [], b :: bs => iff_of_true rfl List.Lex.nil
  | a :: as, [] => by
    refine iff_of_false (by simp [charListLT]) ?_
    intro h
    cases h
  | a :: as, b :: bs => by
    unfold charListLT
    split_ifs with h1 h2
    · exact iff_of_true rfl (List.Lex.rel h1)
    · refine iff_of_false (by simp) ?_
      intro h
      cases h with
      | cons h5 => exact lt_irrefl _ h2
      | rel h3 => exact absurd h3 h1
    · have heq : a = b := le_antisymm (not_lt.mp h2) (not_lt.mp h1)
      subst heq
      refine (charListLT_iff as bs).trans ⟨fun h => List.Lex.cons h, fun h => ?_⟩
      cases h with
      | cons h5 => exact h5
      | rel h3 => exact absurd h3 (lt_irrefl _)

lemma strLT_iff {a b : String} : strLT a b = true ↔ a < b := by
  rw [String.lt_iff_toList_lt]
  exact charListLT_iff a.data b.data

lemma keyLT_true_le {a b : ℕ × String} (h : keyLT a b = true) : keyLEProp a b := by
  unfold keyLT at h
  rw [Bool.or_eq_true, Bool.and_eq_true] at h
  rcases h with h | ⟨h1, h2⟩
  · exact Or.inl (by simpa using h)
  · exact Or.inr ⟨by simpa using h1, le_of_lt (strLT_iff.mp h2)⟩

lemma keyLT_false_le {a b : ℕ × String} (h : keyLT a b = false) : keyLEProp b a := by
  unfold keyLT at h
  rw [Bool.or_eq_false_iff, Bool.and_eq_false_iff] at h
  obtain ⟨h1, h2⟩ := h
  have hnlt : ¬ b.1 < a.1 := by simpa using h1
  rcases lt_trichotomy a.1 b.1 with hc | hc | hc
  · exact Or.inl hc
  · refine Or.inr ⟨hc.symm, ?_⟩
    rcases h2 with h2 | h2
    · exact absurd (by simpa using hc) (by simpa using h2)
    · refine le_of_not_lt fun hlt => ?_
      have := strLT_iff.mpr hlt
      rw [h2] at this
      exact Bool.noConfusion this
  · exact absurd hc hnlt

lemma mem_insertKeyed {x z : ℕ × String} : ∀ {l : List (ℕ × String)},
    z ∈ insertKeyed x l ↔ z = x ∨ z ∈ l := by
  intro l
  induction l with
  | nil => simp [insertKeyed]
  | cons y l ih =>
    unfold insertKeyed
    split_ifs with h
    all_goals simp only [List.mem_cons, ih]
    all_goals tauto

lemma insertKeyed_perm (x : ℕ × String) (l : List (ℕ × String)) :
    (insertKeyed x l).Perm (x :: l) := by
  induction l with
  | nil => exact List.Perm.refl _
  | cons y l ih =>
    unfold insertKeyed
    split_ifs with h
    · exact List.Perm.refl _
    · exact ((ih.cons y).trans (List.Perm.swap x y l))

lemma insertKeyed_sorted {x : ℕ × String} : ∀ {l : List (ℕ × String)},
    List.Sorted keyLEProp l → List.Sorted keyLEProp (insertKeyed x l) := by
  intro l
  induction l with
  | nil => intro _; simp [insertKeyed, List.sorted_singleton]
  | cons y l ih =>
    intro h
    rw [List.sorted_cons] at h
    obtain ⟨hy, hl⟩ := h
    unfold insertKeyed
    split_ifs with hxy
    · rw [List.sorted_cons]
      refine ⟨?_, List.sorted_cons.mpr ⟨hy, hl⟩⟩
      intro z hz
      rcases List.mem_cons.mp hz with rfl | hz
      · exact keyLT_true_le hxy
      · exact keyLEProp_trans (keyLT_true_le hxy) (hy z hz)
    · rw [List.sorted_cons]
      refine ⟨?_, ih hl⟩
      intro z hz
      rcases mem_insertKeyed.mp hz with rfl | hz
      · exact keyLT_false_le (Bool.eq_false_iff.mpr hxy)
      · exact hy z hz

lemma foldl_insertKeyed_perm : ∀ (xs acc : List (ℕ × String)),
    (xs.foldl (fun acc x => insertKeyed x acc) acc).Perm (xs ++ acc) := by
  intro xs
  induction xs with
  | nil => intro acc; simp
  | cons x xs ih =>
    intro acc
    simp only [List.foldl_cons, List.cons_append]
    exact ((ih _).trans ((insertKeyed_perm x acc).append_left xs)).trans
      List.perm_middle

lemma foldl_insertKeyed_sorted : ∀ (xs acc : List (ℕ × String)),
    List.Sorted keyLEProp acc →
    List.Sorted keyLEProp (xs.foldl (fun acc x => insertKeyed x acc) acc) := by
  intro xs
  induction xs with
  | nil => intro acc h; exact h
  | cons x xs ih =>
    intro acc h
    simp only [List.foldl_cons]
    exact ih _ (insertKeyed_sorted h)

lemma sortKeyed_perm (xs : List (ℕ × String)) : (sortKeyed xs).Perm xs := by
  have := foldl_insertKeyed_perm xs []
  simpa [sortKeyed] using this

lemma sortKeyed_sorted (xs : List (ℕ × String)) :
    List.Sorted keyLEProp (sortKeyed xs) :=
  foldl_insertKeyed_sorted xs [] (by simp)

/-- C6 (amended): suggest_roles_for_skill returns, from the role list scored
by token overlap with a +3 boundary-match bonus, the first 2 role_ids of a
permutation sorted by descending score with ascending role_id as tiebreaker,
keeping only positively scoring roles when any exist; when none score
positively it falls back to the first 2 entries of that same sorted list
(all scores being zero, ascending role_id order), not the original
experience order. -/
theorem C6_suggest_roles_corrected (resume_state : ResumeState) (skill : String)
    (jd_context : Option String) :
    ∃ sorted : List (ℕ × String),
      sorted.Perm (resume_state.sections.experience.map
        (roleScorePair (tokenizeSet (pyStrip skill ++ " " ++ jd_context.getD ""))
          (pyStrip skill))) ∧
      List.Sorted keyLEProp sorted ∧
      suggest_roles_for_skill resume_state skill jd_context =
        (if resume_state.sections.experience = [] then []
         else if (sorted.filter fun p => 0 < p.1) = [] then
           (sorted.map (·.2)).take 2
         else ((sorted.filter fun p => 0 < p.1).map (·.2)).take 2) := by
  refine ⟨sortKeyed (resume_state.sections.experience.map
      (roleScorePair (tokenizeSet (pyStrip skill ++ " " ++ jd_context.getD ""))
        (pyStrip skill))),
    sortKeyed_perm _, sortKeyed_sorted _, ?_⟩
  unfold suggest_roles_for_skill
  dsimp only
  by_cases hexp : resume_state.sections.experience = []
  · rw [if_pos hexp, if_pos hexp]
  · rw [if_neg hexp, if_neg hexp]
    by_cases hf : (sortKeyed (resume_state.sections.experience.map
        (roleScorePair (tokenizeSet (pyStrip skill ++ " " ++ jd_context.getD ""))
          (pyStrip skill)))).filter (fun p => 0 < p.1) = []
    · rw [if_pos hf, hf]
      simp
    · rw [if_neg hf]
      have htop : (((sortKeyed (resume_state.sections.experience.map
          (roleScorePair (tokenizeSet (pyStrip skill ++ " " ++ jd_context.getD ""))
            (pyStrip skill)))).filter (fun p => 0 < p.1)).map (·.2)).take 2 ≠ [] := by
        intro hc
        rcases List.take_eq_nil_iff.mp hc with hc2 | hc2
        · exact absurd hc2 (by norm_num)
        · exact hf (List.map_eq_nil.mp hc2)
      rw [if_neg htop]

/-- Two roles whose ids are in descending order and which share no token
with the probed skill. -/
def stateBA : ResumeState :=
  { sections := { professional_summary := "",
                  technical_skills := [],
                  experience := [{ role_id := "b", company := "Bco", title := "",
                                   dates := "", location := "", bullets := [] },
                                 { role_id := "a", company := "Aco", title := "",
                                   dates := "", location := "", bullets := [] }],
                  education := [] } }

/-- C6 counterexample: with no positively scoring role the function returns
the role_ids in ascending order ["a", "b"], not the first 2 roles of the
resume in original experience order ["b", "a"]. -/
theorem C6_suggest_roles_counterexample :
    suggest_roles_for_skill stateBA "zzz" none = ["a", "b"] ∧
    (∀ pair ∈ stateBA.sections.experience.map
      (roleScorePair (tokenizeSet (pyStrip "zzz" ++ " " ++ (none : Option String).getD ""))
        (pyStrip "zzz")), pair.1 = 0) ∧
    (stateBA.sections.experience.map Role.role_id).take 2 = ["b", "a"] ∧
    suggest_roles_for_skill stateBA "zzz" none ≠
      (stateBA.sections.experience.map Role.role_id).take 2 := by
  refine ⟨by decide, by decide, by decide, by decide⟩

/-- A resume whose technical skills hold "MySQL" but not the token "SQL". -/
def stateMySQL : ResumeState :=
  { sections := { professional_summary := "", technical_skills := ["MySQL"],
                  experience := [], education := [] } }

/-- C5 (code-bug evidence): for missing required skill "SQL" over a resume
containing only "MySQL", the suggestion loop emits no patch because
`_skill_already_present`'s miswritten pattern (raw `r"(?<!\\w)"`) matches
"SQL" as a substring of "MySQL", although the word-boundary search the spec
prescribes (and `_has_token` implements) finds no occurrence; on a resume
without the substring the expected single "Exposure to SQL" patch is
emitted. -/
theorem C5_code_behavior_at_failing_input :
    suggested_patches stateMySQL ["SQL"] none = [] ∧
    skill_already_present stateMySQL "SQL" = true ∧
    hasToken "MySQL" "SQL" = false ∧
    suggested_patches stateEmpty ["SQL"] none =
      [{ section_ := "technical_skills", action := "insert", role_id := none,
         after_index := some (-1), bullet_index := none,
         new_bullet := "Exposure to SQL", skill := some "SQL" }] := by
  refine ⟨by decide, by decide, by decide, by decide⟩
